import Mathlib

/-!
Verification of the swetrix analytics engine against its specification.

The definitions below are a shallow embedding of the TypeScript sources:
  * the analytics controller (`AnalyticsController` and its helper functions
    `isPerformanceValid`, `getPIDsArray`, `TRANSPARENT_GIF_BUFFER`), and
  * the filter utilities (`isFilterValid`, `applyFilters`,
    `parseFiltersFromUrl`, `validFilters`, `validDynamicFilters`).

JavaScript strings are modelled as Lean `String` manipulated through their
character lists (all operations are executable and kernel-reducible);
`undefined`/missing values as `Option`; thrown NestJS exceptions as an
`HttpError` value inside `Except`; the ClickHouse store as an explicit list of
appended rows; and the Redis presence-marker store as an association list
threaded through calls.  Functions of the repository that are referenced by the
controller but whose file is not part of the sources (the analytics service)
are modelled from the spec and carry a doc comment saying so.
-/

/-- NestJS exceptions thrown by the controller, by constructor kind. -/
inductive HttpError
  | badRequest (msg : String)
  | unprocessableEntity (msg : String)
  | forbidden (msg : String)
  | internalServerError (msg : String)
deriving DecidableEq, Repr

/-- The four time-bucket granularities (`validTimeBacket` in the web sources,
and the granularities used by `getTimeBucketForAllTime`). -/
inductive TimeBucket
  | hour
  | day
  | week
  | month
deriving DecidableEq, Repr

/-- Modelled from the spec: the fixed period enum of the Period Resolver
(`VALID_PERIODS` is imported from `decorators/validate-period.decorator`,
a file that is not part of the sources).  The spec lists the enum as
`today, yesterday, 1d, 7d, 4w, 3M, 12M, 24M, custom, all`. -/
def VALID_PERIODS : List String :=
  ["today", "yesterday", "1d", "7d", "4w", "3M", "12M", "24M", "custom", "all"]

/-- In `getData`, period `all`: the bucket used for grouping.  Embeds
`_includes(res.timeBucket, timeBucket) ? timeBucket : res.timeBucket[0]`;
JavaScript indexing `[0]` of an empty array yields `undefined`, modelled by
`List.head?`. -/
def getDataNewTimebucket (allowed : List TimeBucket) (requested : TimeBucket) :
    Option TimeBucket :=
  if allowed.contains requested then some requested else allowed.head?

/-- In `getPerfData`, period `all`: the bucket used for grouping (same
expression as in `getData`). -/
def getPerfDataNewTimeBucket (allowed : List TimeBucket) (requested : TimeBucket) :
    Option TimeBucket :=
  if allowed.contains requested then some requested else allowed.head?

/-- In `getCustomEvents`, period `all`: the bucket used for grouping (same
expression as in `getData`). -/
def getCustomEventsNewTimeBucket (allowed : List TimeBucket) (requested : TimeBucket) :
    Option TimeBucket :=
  if allowed.contains requested then some requested else allowed.head?

/-- The endpoint `getCustomEvents` guards the all-time branch by
`period === VALID_PERIODS[VALID_PERIODS.length - 1]`; JavaScript indexing of
the last element is modelled with `List.getLast?`. -/
def getCustomEventsAllTimeGuard (period : String) : Bool :=
  VALID_PERIODS.getLast? = some period

/-! ### String helpers (JavaScript string operations on character lists) -/

/-- Embeds `String.prototype.startsWith`, via character lists so that it is
kernel-reducible. -/
def strStartsWith (s target : String) : Bool :=
  target.toList.isPrefixOf s.toList

/-- Embeds `String.prototype.substring(n)`: drops the first `n` characters. -/
def strDrop (s : String) (n : Nat) : String :=
  String.mk (s.toList.drop n)

/-- Index of the first occurrence of `needle` in `hay` (`String.prototype.indexOf`):
the empty needle is found at index 0. -/
def listIndexOfSub (hay needle : List Char) : Option Nat :=
  if needle.isPrefixOf hay then some 0
  else
    match hay with
    | [] => none
    | _ :: t => (listIndexOfSub t needle).map (· + 1)

/-- Embeds `String.prototype.includes` (what `_includes(string, target)` delegates to). -/
def strIncludes (s target : String) : Bool :=
  (listIndexOfSub s.toList target.toList).isSome

/-- Embeds `_replace(s, needle, '')`: `String.prototype.replace` with a string pattern
replaces only the first occurrence. -/
def replaceFirst (s needle : String) : String :=
  match listIndexOfSub s.toList needle.toList with
  | none => s
  | some i => String.mk (s.toList.take i ++ s.toList.drop (i + needle.toList.length))

/-! ### Filter utilities (`src/web/app/pages/Project/View/utils/filters.tsx`) -/

/-- The fixed filter-column allow-list (`validFilters`). -/
def validFilters : List String :=
  ["cc", "rg", "ct", "pg", "lc", "ref", "dv", "br", "os", "so", "me", "ca", "ev",
   "tag:key", "tag:value", "ev:key", "ev:value"]

/-- The recognized dynamic filter-column prefixes (`validDynamicFilters`). -/
def validDynamicFilters : List String :=
  ["ev:key:", "tag:key:"]

/-- Embeds `isFilterValid(filter, checkDynamicFilters = false)`. -/
def isFilterValid (filter : String) (checkDynamicFilters : Bool := false) : Bool :=
  if validFilters.contains filter then
    true
  else if checkDynamicFilters && validDynamicFilters.any (fun p => strStartsWith filter p) then
    true
  else
    false

/-- The value carried by `IFilter.filter` in the web sources: a string, an
array of strings, or a nullish value. -/
inductive FilterValue
  | str (s : String)
  | arr (vs : List String)
  | null
deriving DecidableEq, Repr

/-- The shape of `IFilter` as consumed by `applyFilters`. -/
structure IFilter where
  column : String
  filter : FilterValue
  isExclusive : Bool
deriving DecidableEq, Repr

/-- A filter as produced by `parseFiltersFromUrl` (one entry per query-string
pair; `filter` is always a single string there). -/
structure ParsedFilter where
  column : String
  filter : String
  isExclusive : Bool
deriving DecidableEq, Repr

/-- Models `URLSearchParams` as an insertion-ordered list of key/value pairs. -/
abbrev SearchParams := List (String × String)

/-- Embeds `URLSearchParams.has`. -/
def hasParam (ps : SearchParams) (k : String) : Bool :=
  ps.any (fun kv => kv.1 == k)

/-- Embeds `URLSearchParams.delete` (removes every pair with the given key). -/
def deleteParam (ps : SearchParams) (k : String) : SearchParams :=
  ps.filter (fun kv => !(kv.1 == k))

/-- Embeds `URLSearchParams.append` (adds the pair at the end). -/
def appendParam (ps : SearchParams) (k v : String) : SearchParams :=
  ps ++ [(k, v)]

/-- Embeds `filters.forEach((filter) => searchParams.append(columnSuffix, filter))`. -/
def appendAllParams (ps : SearchParams) (k : String) (vs : List String) : SearchParams :=
  vs.foldl (fun acc v => appendParam acc k v) ps

/-- Embeds `applyFilters(items, suffix, searchParams, override)`: returns the mutated
search params together with `filtersToLoad`.  An item with a nullish filter,
an empty-string filter or an empty filter array is skipped (the original
`if (!item.filter) return` and `if (filters.length === 0) return`). -/
def applyFilters (suffix : String) (override : Bool) :
    List IFilter → SearchParams → SearchParams × List IFilter
  | [], searchParams => (searchParams, [])
  | item :: rest, searchParams =>
    let vals : List String :=
      match item.filter with
      | .null => []
      | .str s => if s = "" then [] else [s]
      | .arr vs => vs
    if vals.isEmpty then
      applyFilters suffix override rest searchParams
    else
      let columnSuffix := item.column ++ suffix
      let searchParams' :=
        if override || !(hasParam searchParams columnSuffix) then
          appendAllParams (deleteParam searchParams columnSuffix) columnSuffix vals
        else
          searchParams
      let res := applyFilters suffix override rest searchParams'
      (res.1, item :: res.2)

/-- Embeds `updateFilterState` (without the React state setters): toggles a filter
value, deleting the whole column from the query string when the value was
already present and appending the raw value (with no exclusivity marker)
otherwise. -/
def updateFilterState (searchParams : SearchParams) (filters : List ParsedFilter)
    (column columnSuffix : String) (filter : String) (isExclusive : Bool) :
    SearchParams × List ParsedFilter :=
  match filters.findIdx? (fun f => f.filter == filter) with
  | some idx => (deleteParam searchParams column, filters.eraseIdx idx)
  | none =>
      (appendParam searchParams column filter,
       filters ++ [⟨columnSuffix, filter, isExclusive⟩])

/-- Embeds `parseFiltersFromUrl(keySuffix, searchParams, ...)`: the untrusted-input
filter parser.  Iterates the query-string pairs in order; keeps a pair when
its key contains the suffix and the key with the suffix stripped passes
`isFilterValid` (called without `checkDynamicFilters`); a leading `!` on the
raw value marks exclusivity and is stripped from the stored value. -/
def parseFiltersFromUrl (keySuffix : String) : SearchParams → List ParsedFilter
  | [] => []
  | (key, value) :: rest =>
    if !(strIncludes key keySuffix) then
      parseFiltersFromUrl keySuffix rest
    else
      let keyWithoutSuffix := replaceFirst key keySuffix
      if !(isFilterValid keyWithoutSuffix) then
        parseFiltersFromUrl keySuffix rest
      else
        let isExclusive := strStartsWith value "!"
        ⟨keyWithoutSuffix, if isExclusive then strDrop value 1 else value, isExclusive⟩ ::
          parseFiltersFromUrl keySuffix rest

/-- The normalized single-value form of an `IFilter`, for comparison with the
output of the parser in the round-trip property. -/
def normalizeFilter (i : IFilter) : ParsedFilter :=
  match i.filter with
  | .str v => ⟨i.column, v, i.isExclusive⟩
  | .arr vs => ⟨i.column, vs.headD "", i.isExclusive⟩
  | .null => ⟨i.column, "", i.isExclusive⟩

/-! ### Ingestion (`AnalyticsController.log`, `logCustom`, `noscript`) -/

/-- No performance timing may exceed five minutes. -/
def MAX_PERFORMANCE_VALUE : Int := 1000 * 60 * 5

/-- The performance payload attached to a pageview (`logDTO.perf`). -/
structure PerfDTO where
  dns : Int
  tls : Int
  conn : Int
  response : Int
  render : Int
  dom_load : Int
  page_load : Int
  ttfb : Int
deriving DecidableEq, Repr

/-- Embeds `isPerformanceValid(perf)`: every timing is at most
`MAX_PERFORMANCE_VALUE` and at least 0. -/
def isPerformanceValid (perf : PerfDTO) : Bool :=
  decide (perf.dns ≤ MAX_PERFORMANCE_VALUE) &&
  decide (perf.tls ≤ MAX_PERFORMANCE_VALUE) &&
  decide (perf.conn ≤ MAX_PERFORMANCE_VALUE) &&
  decide (perf.response ≤ MAX_PERFORMANCE_VALUE) &&
  decide (perf.render ≤ MAX_PERFORMANCE_VALUE) &&
  decide (perf.dom_load ≤ MAX_PERFORMANCE_VALUE) &&
  decide (perf.page_load ≤ MAX_PERFORMANCE_VALUE) &&
  decide (perf.ttfb ≤ MAX_PERFORMANCE_VALUE) &&
  decide (perf.dns ≥ 0) &&
  decide (perf.tls ≥ 0) &&
  decide (perf.conn ≥ 0) &&
  decide (perf.response ≥ 0) &&
  decide (perf.render ≥ 0) &&
  decide (perf.dom_load ≥ 0) &&
  decide (perf.page_load ≥ 0) &&
  decide (perf.ttfb ≥ 0)

/-- The fields of `PageviewsDTO` that the ingestion claims inspect; `perf`
is `none` for a missing or `_isEmpty` payload. -/
structure PageviewsDTO where
  pid : String
  unique : Bool := false
  perf : Option PerfDTO := none
deriving DecidableEq, Repr

/-- Modelled from the spec: `trafficTransformer` (from `./utils/transformers`,
a file not in the sources) shapes the pageview row appended to the
`analytics` table; only the fields the claims inspect are kept (its last
argument is `Number(unique)`). -/
structure TrafficRow where
  psid : String
  pid : String
  unique : Nat
deriving DecidableEq, Repr

/-- Modelled from the spec: builds the pageview row. -/
def trafficTransformer (psid pid : String) (unique : Nat) : TrafficRow :=
  ⟨psid, pid, unique⟩

/-- Modelled from the spec: the row appended to the `performance` table by
`performanceTransformer` (from `./utils/transformers`, not in the sources). -/
structure PerfRow where
  pid : String
  dns : Int
  tls : Int
  conn : Int
  response : Int
  render : Int
  dom_load : Int
  page_load : Int
  ttfb : Int
deriving DecidableEq, Repr

/-- Modelled from the spec: builds the performance row. -/
def performanceTransformer (pid : String)
    (dns tls conn response render domLoad pageLoad ttfb : Int) : PerfRow :=
  ⟨pid, dns, tls, conn, response, render, domLoad, pageLoad, ttfb⟩

/-- The rows appended by one `log` request. -/
structure LogEffects where
  analyticsRows : List TrafficRow
  performanceRows : List PerfRow
deriving DecidableEq, Repr

/-- Embeds `AnalyticsController.log`, from the point where `isUnique` has returned
`(unique, psid)`: the unique-only gate (`if (unique && logDTO.unique) throw
ForbiddenException`), the traffic row, the optional performance row
(`!_isEmpty(logDTO.perf) && isPerformanceValid(logDTO.perf)`), and the
inserts into `analytics` and `performance`. -/
def log (logDTO : PageviewsDTO) (unique : Bool) (psid : String) :
    Except HttpError LogEffects :=
  if unique && logDTO.unique then
    .error (.forbidden
      "The event was not saved because it was not unique while unique only param is provided")
  else
    let transformed := trafficTransformer psid logDTO.pid (if unique then 1 else 0)
    let perfTransformed : Option PerfRow :=
      match logDTO.perf with
      | none => none
      | some p =>
        if isPerformanceValid p then
          some (performanceTransformer logDTO.pid p.dns p.tls p.conn p.response p.render
            p.dom_load p.page_load p.ttfb)
        else none
    .ok ⟨[transformed],
         match perfTransformed with
         | some r => [r]
         | none => []⟩

/-- Embeds `AnalyticsController.logCustom`, the unique-event gate: when the DTO
unique flag is set and `isUnique` reports the visit as not new, the request
is rejected with `ForbiddenException`. -/
def logCustomUniqueGate (dtoUnique : Bool) (unique : Bool) : Except HttpError Unit :=
  if dtoUnique then
    if !unique then
      .error (.forbidden
        "The unique option provided, while the custom event have already been created for this session")
    else .ok ()
  else .ok ()

/-! ### `noscript` and the transparent GIF -/

/-- The value of one base64 digit. -/
def base64CharValue (c : Char) : Option Nat :=
  if 'A' ≤ c ∧ c ≤ 'Z' then some (c.toNat - 65)
  else if 'a' ≤ c ∧ c ≤ 'z' then some (c.toNat - 97 + 26)
  else if '0' ≤ c ∧ c ≤ '9' then some (c.toNat - 48 + 52)
  else if c = '+' then some 62
  else if c = '/' then some 63
  else none

/-- Embeds `Buffer.from(s, base64)`: each group of four base64 digits decodes to
three bytes, `=` padding shortening the final group. -/
def base64DecodeGroups : List Char → List Nat
  | c1 :: c2 :: c3 :: c4 :: rest =>
    (match base64CharValue c1, base64CharValue c2 with
     | some v1, some v2 =>
       let b1 := v1 * 4 + v2 / 16
       (match base64CharValue c3 with
        | none => [b1]
        | some v3 =>
          let b2 := (v2 % 16) * 16 + v3 / 4
          (match base64CharValue c4 with
           | none => [b1, b2]
           | some v4 => b1 :: b2 :: ((v3 % 4) * 64 + v4) :: base64DecodeGroups rest))
     | _, _ => [])
  | _ => []

/-- Decode a base64 string to its bytes. -/
def base64Decode (s : String) : List Nat :=
  base64DecodeGroups s.toList

/-- Embeds `TRANSPARENT_GIF_BUFFER`: the fixed 1x1 transparent GIF served by
`noscript`. -/
def TRANSPARENT_GIF_BUFFER : List Nat :=
  base64Decode "R0lGODlhAQABAIAAAP///wAAACwAAAAAAQABAAACAkQBADs="

/-- The response written with `res.writeHead` / `res.end`. -/
structure HttpResponse where
  status : Nat
  contentType : String
  body : List Nat
deriving DecidableEq, Repr

/-- Whether the ClickHouse insert succeeds or throws. -/
inductive InsertOutcome
  | ok
  | fail (msg : String)
deriving DecidableEq, Repr

/-- Everything observable about one `noscript` request. -/
structure NoscriptOutcome where
  response : HttpResponse
  storedRows : List TrafficRow
  loggedErrors : List String
  thrown : Option HttpError
deriving DecidableEq, Repr

/-- Embeds `AnalyticsController.noscript`: when the bot check throws, the GIF is
served immediately; otherwise the traffic row is built and inserted, an
insert failure being logged (`this.logger.error(e)`) and swallowed; the
placeholder GIF with HTTP 200 / `image/gif` is written on every path. -/
def noscript (pid : String) (unique : Bool) (psid : String)
    (botCheckFails : Bool) (insertOutcome : InsertOutcome) : NoscriptOutcome :=
  let gif : HttpResponse := ⟨200, "image/gif", TRANSPARENT_GIF_BUFFER⟩
  if botCheckFails then
    ⟨gif, [], [], none⟩
  else
    let transformed := trafficTransformer psid pid (if unique then 1 else 0)
    match insertOutcome with
    | .ok => ⟨gif, [transformed], [], none⟩
    | .fail msg => ⟨gif, [], [msg], none⟩

/-! ### Identity and dedup (`AnalyticsService.isUnique`, modelled from the spec) -/

/-- Modelled from the spec: the presence-marker store of the Identity & Dedup
component (`analytics.service.ts` is not part of the sources).  Markers map
the salted visitor hash to the minted session id; `nextSessionId` models the
minting of fresh session ids. -/
structure DedupState where
  markers : List (String × String)
  nextSessionId : Nat
deriving DecidableEq, Repr

/-- Modelled from the spec: the salted hash over `(ip, userAgent, projectId)`,
modelled as an injective encoding of its inputs. -/
def sessionHash (salt pid userAgent ip : String) : String :=
  salt ++ ":" ++ ip ++ ":" ++ userAgent ++ ":" ++ pid

/-- Modelled from the spec: `isUnique(pid, userAgent, ip)` checks the
presence marker for the salted hash; if no marker existed the visit is
unique, a new session id is minted and the marker set; otherwise the stored
session id is returned unmodified (the TTL refresh does not change the
marker value). -/
def isUnique (salt pid userAgent ip : String) (st : DedupState) :
    (Bool × String) × DedupState :=
  let key := sessionHash salt pid userAgent ip
  match st.markers.lookup key with
  | some sid => ((false, sid), st)
  | none =>
    let sid := "sid-" ++ toString st.nextSessionId
    ((true, sid), ⟨(key, sid) :: st.markers, st.nextSessionId + 1⟩)

/-! ### Pagination (`getSessions`, `getErrors`) -/

/-- Modelled from the spec: `getSafeNumber(value, default)` of the analytics
service (not part of the sources) returns the default when the parameter is
absent and the numeric value otherwise; the DTO has already validated the
parameters as non-negative integers, hence `Nat`. -/
def getSafeNumber (value : Option Nat) (dflt : Nat) : Nat :=
  value.getD dflt

/-- The pagination pair handed to the list query. -/
structure ListQuery where
  take : Nat
  skip : Nat
deriving DecidableEq, Repr

/-- Embeds `AnalyticsController.getSessions`, pagination prefix: `take`/`skip`
resolution and the 150 cap, checked before the sessions list query runs. -/
def getSessionsPagination (takeParam skipParam : Option Nat) :
    Except HttpError ListQuery :=
  let take := getSafeNumber takeParam 30
  let skip := getSafeNumber skipParam 0
  if take > 150 then
    .error (.badRequest "The maximum number of sessions to return is 150")
  else
    .ok ⟨take, skip⟩

/-- Embeds `AnalyticsController.getErrors`, pagination prefix (the identical check
with its own message). -/
def getErrorsPagination (takeParam skipParam : Option Nat) :
    Except HttpError ListQuery :=
  let take := getSafeNumber takeParam 30
  let skip := getSafeNumber skipParam 0
  if take > 150 then
    .error (.badRequest "The maximum number of errors to return is 150")
  else
    .ok ⟨take, skip⟩

/-! ### `getData`: the metrics cap -/

/-- The ClickHouse queries `getData` can issue, tagged by service call. -/
inductive StoreQuery
  | timeBucketForAllTime (pid : String)
  | groupByTimeBucket (pid : String)
  | customEvents (pid : String)
  | pageProperties (pid : String)
  | metaResults (pid : String) (metrics : List String)
deriving DecidableEq, Repr

/-- What a completed `getData` request computed. -/
structure GetDataOutcome where
  queries : List StoreQuery
  computedMetrics : List String
deriving DecidableEq, Repr

/-- Embeds `AnalyticsController.getData`, reduced to the order of the metrics-cap
check and the store queries it issues: `_size(parsedMetrics) >
MAX_METRICS_IN_VIEW` is checked before any ClickHouse query
(`MAX_METRICS_IN_VIEW` is imported from a file outside the sources, so the
cap is a parameter here); `getMetaResults` is issued only for a non-empty
metrics list and always with the full parsed list, never a truncated one. -/
def getData (maxMetricsInView : Nat) (pid : String) (parsedMetrics : List String)
    (periodIsAll : Bool) (customEVFilterApplied : Bool) :
    Except HttpError GetDataOutcome :=
  if parsedMetrics.length > maxMetricsInView then
    .error (.badRequest ("The maximum number of metrics within one request is "
      ++ toString maxMetricsInView))
  else
    let allTimeQueries := if periodIsAll then [StoreQuery.timeBucketForAllTime pid] else []
    let propertyQueries := if customEVFilterApplied then [] else [StoreQuery.pageProperties pid]
    let metaQueries :=
      if parsedMetrics.isEmpty then [] else [StoreQuery.metaResults pid parsedMetrics]
    .ok ⟨allTimeQueries ++ [StoreQuery.groupByTimeBucket pid, StoreQuery.customEvents pid]
      ++ propertyQueries ++ metaQueries, parsedMetrics⟩

/-! ### `getPIDsArray` and JSON parsing (`JSON.parse` / `JSON.stringify`) -/

/-- An opening curly brace (written via its code point to keep it out of
string literals). -/
def lbraceChar : Char := Char.ofNat 123

/-- A closing curly brace. -/
def rbraceChar : Char := Char.ofNat 125

/-- A JSON value; number lexemes are kept unevaluated, which is all the
claims need. -/
inductive Json
  | str (s : String)
  | num (raw : String)
  | bool (b : Bool)
  | null
  | arr (elems : List Json)
  | obj (fields : List (String × Json))

/-- Resolve a character after a backslash in a JSON string. -/
def jsonUnescapeChar (c : Char) : Char :=
  if c = 'n' then '\n'
  else if c = 't' then '\t'
  else if c = 'r' then '\r'
  else if c = 'b' then Char.ofNat 8
  else if c = 'f' then Char.ofNat 12
  else c

/-- Parse the body of a JSON string up to the closing quote; the flag
records that the previous character was an unconsumed backslash. -/
def parseStringBodyAux : Bool → List Char → Option (List Char × List Char)
  | _, [] => none
  | true, e :: rest =>
    (parseStringBodyAux false rest).map (fun p => (jsonUnescapeChar e :: p.1, p.2))
  | false, c :: rest =>
    if c = '"' then some ([], rest)
    else if c = '\\' then parseStringBodyAux true rest
    else (parseStringBodyAux false rest).map (fun p => (c :: p.1, p.2))

/-- Parse the body of a JSON string up to the closing quote. -/
def parseStringBody (input : List Char) : Option (List Char × List Char) :=
  parseStringBodyAux false input

/-- JSON whitespace. -/
def isJsonWs (c : Char) : Bool :=
  c == ' ' || c == '\n' || c == '\t' || c == '\r'

/-- Drop leading JSON whitespace. -/
def skipWs : List Char → List Char
  | [] => []
  | c :: cs => if isJsonWs c then skipWs cs else c :: cs

/-- An ASCII digit. -/
def isJsonDigit (c : Char) : Bool :=
  decide ('0' ≤ c) && decide (c ≤ '9')

/-- Split off a maximal run of digits. -/
def takeDigits : List Char → (List Char × List Char)
  | [] => ([], [])
  | c :: cs =>
    if isJsonDigit c then
      let r := takeDigits cs
      (c :: r.1, r.2)
    else ([], c :: cs)

/-- The exponent digits of a number lexeme. -/
def parseExponentTail (lexeme : List Char) (e : Char) (input : List Char) :
    Option (List Char × List Char) :=
  let (sign, rest) :=
    match input with
    | '+' :: cs => ((['+'] : List Char), cs)
    | '-' :: cs => ((['-'] : List Char), cs)
    | cs => ([], cs)
  match takeDigits rest with
  | ([], _) => none
  | (ds, rest2) => some (lexeme ++ e :: sign ++ ds, rest2)

/-- The optional exponent of a number lexeme. -/
def parseExponentPart (lexeme : List Char) (input : List Char) :
    Option (List Char × List Char) :=
  match input with
  | 'e' :: cs => parseExponentTail lexeme 'e' cs
  | 'E' :: cs => parseExponentTail lexeme 'E' cs
  | _ => some (lexeme, input)

/-- Lex a JSON number (optional sign, integer part, optional fraction and
exponent). -/
def parseNumberLexeme (input : List Char) : Option (List Char × List Char) :=
  let (sign, rest1) :=
    match input with
    | '-' :: cs => ((['-'] : List Char), cs)
    | cs => ([], cs)
  match takeDigits rest1 with
  | ([], _) => none
  | (intPart, rest2) =>
    match rest2 with
    | '.' :: cs =>
      (match takeDigits cs with
       | ([], _) => none
       | (fracPart, rest3) => parseExponentPart (sign ++ intPart ++ '.' :: fracPart) rest3)
    | _ => parseExponentPart (sign ++ intPart) rest2

mutual

/-- Parse one JSON value; the fuel bounds the bracket-nesting depth. -/
def parseJsonAux : Nat → List Char → Option (Json × List Char)
  | 0, _ => none
  | fuel + 1, input =>
    match skipWs input with
    | [] => none
    | c :: rest =>
      if c = '"' then
        match parseStringBody rest with
        | some (s, r) => some (.str (String.mk s), r)
        | none => none
      else if c = 't' then
        match rest with
        | 'r' :: 'u' :: 'e' :: r => some (.bool true, r)
        | _ => none
      else if c = 'f' then
        match rest with
        | 'a' :: 'l' :: 's' :: 'e' :: r => some (.bool false, r)
        | _ => none
      else if c = 'n' then
        match rest with
        | 'u' :: 'l' :: 'l' :: r => some (.null, r)
        | _ => none
      else if c = '[' then
        match skipWs rest with
        | ']' :: r => some (.arr [], r)
        | r =>
          match parseArrayItems fuel r with
          | some (elems, r2) => some (.arr elems, r2)
          | none => none
      else if c = lbraceChar then
        match skipWs rest with
        | c2 :: r2 =>
          if c2 = rbraceChar then some (.obj [], r2)
          else
            (match parseObjMembers fuel (c2 :: r2) with
             | some (fs, r3) => some (.obj fs, r3)
             | none => none)
        | [] => none
      else
        match parseNumberLexeme (c :: rest) with
        | some (lx, r) => some (.num (String.mk lx), r)
        | none => none

/-- Parse the comma-separated items of a non-empty JSON array, including the
closing bracket. -/
def parseArrayItems : Nat → List Char → Option (List Json × List Char)
  | 0, _ => none
  | fuel + 1, input =>
    match parseJsonAux fuel input with
    | none => none
    | some (v, r) =>
      match skipWs r with
      | ',' :: r2 =>
        (match parseArrayItems fuel r2 with
         | some (vs, r3) => some (v :: vs, r3)
         | none => none)
      | ']' :: r2 => some ([v], r2)
      | _ => none

/-- Parse the members of a non-empty JSON object, including the closing
brace. -/
def parseObjMembers : Nat → List Char → Option (List (String × Json) × List Char)
  | 0, _ => none
  | fuel + 1, input =>
    match skipWs input with
    | '"' :: r =>
      (match parseStringBody r with
       | none => none
       | some (k, r2) =>
         match skipWs r2 with
         | ':' :: r3 =>
           (match parseJsonAux fuel r3 with
            | none => none
            | some (v, r4) =>
              match skipWs r4 with
              | ',' :: r5 =>
                (match parseObjMembers fuel r5 with
                 | some (fs, r6) => some ((String.mk k, v) :: fs, r6)
                 | none => none)
              | c :: r5 => if c = rbraceChar then some ([(String.mk k, v)], r5) else none
              | [] => none)
         | _ => none)
    | _ => none

end

/-- Embeds `JSON.parse`: one JSON value followed only by whitespace; anything else
is a parse error (`none`). -/
def jsonParse (s : String) : Option Json :=
  match parseJsonAux (s.toList.length + 1) s.toList with
  | some (v, rest) => if (skipWs rest).isEmpty then some v else none
  | none => none

/-- Embeds the `JSON.stringify` escaping of a string body (quotes and backslashes; the
claims never exercise control characters). -/
def jsonEscape : List Char → List Char
  | [] => []
  | c :: cs =>
    if c = '"' ∨ c = '\\' then '\\' :: c :: jsonEscape cs
    else c :: jsonEscape cs

/-- Embeds `JSON.stringify` of an array of strings (the shape `getPIDsArray` builds
in its `pid`-only branch). -/
def jsonStringifyStrArr (xs : List String) : String :=
  String.mk ('[' :: List.intercalate [',']
    (xs.map (fun s => '"' :: (jsonEscape s.toList ++ ['"']))) ++ [']'])

/-- lodash `_isEmpty` on an optional string query parameter. -/
def optStrEmpty : Option String → Bool
  | none => true
  | some s => s.toList.isEmpty

/-- Embeds `getPIDsArray(pids, pid)`. -/
def getPIDsArray (pids pid : Option String) : Except HttpError (List Json) :=
  let pidsEmpty := optStrEmpty pids
  let pidEmpty := optStrEmpty pid
  if pidsEmpty && pidEmpty then
    .error (.badRequest
      "An array of Project IDs (pids) or a Project ID (pid) has to be provided")
  else if !pidsEmpty && !pidEmpty then
    .error (.badRequest
      "Please provide either an array of Project IDs (pids) or a Project ID (pid), but not both")
  else
    let pidsStr :=
      if !pidEmpty then jsonStringifyStrArr [pid.getD ""]
      else pids.getD ""
    match jsonParse pidsStr with
    | none =>
      .error (.unprocessableEntity "Cannot process the provided array of Project IDs")
    | some (.arr elems) => .ok elems
    | some _ =>
      .error (.unprocessableEntity "An array of Project IDs has to be provided as a pids param")


/-- C1: for a request with period `all`, the bucket used for grouping is the
requested bucket when it belongs to the allowed list returned by
`getTimeBucketForAllTime`, and the first element of the allowed list
otherwise; `getData`, `getPerfData` and `getCustomEvents` compute it
identically, and the guard in `getCustomEvents` fires exactly on period `all`. -/
theorem allTime_bucket_selection (allowed : List TimeBucket) (requested : TimeBucket)
    (hne : allowed ≠ []) :
    (getDataNewTimebucket allowed requested =
      if requested ∈ allowed then some requested else some (allowed.head hne)) ∧
    getPerfDataNewTimeBucket allowed requested = getDataNewTimebucket allowed requested ∧
    getCustomEventsNewTimeBucket allowed requested = getDataNewTimebucket allowed requested ∧
    (∀ period : String, getCustomEventsAllTimeGuard period = true ↔ period = "all") := by
  refine ⟨?_, rfl, rfl, ?_⟩
  · simp only [getDataNewTimebucket]
    by_cases h : requested ∈ allowed
    · simp [h]
    · simp [h, List.head?_eq_head hne]
  · intro period
    simp only [getCustomEventsAllTimeGuard, VALID_PERIODS]
    constructor
    · intro h
      have := of_decide_eq_true h
      simpa using this.symm
    · intro h
      subst h
      decide

/-- Witness for C1 at a concrete input: the allowed list is
`[day, week, month]` and the requested bucket `hour` is not in it, so the
first allowed bucket `day` is used. -/
theorem allTime_bucket_selection_witness :
    getDataNewTimebucket [TimeBucket.day, TimeBucket.week, TimeBucket.month] TimeBucket.hour =
      some TimeBucket.day := by
  have h := allTime_bucket_selection [TimeBucket.day, TimeBucket.week, TimeBucket.month]
    TimeBucket.hour (by decide)
  rw [h.1]
  decide

lemma stringMk_toList (s : String) : String.mk s.toList = s := by cases s; rfl

lemma listIndexOfSub_nil_target (l : List Char) : listIndexOfSub l [] = some 0 := by
  unfold listIndexOfSub
  cases l <;> rfl

lemma strIncludes_empty_target (s : String) : strIncludes s "" = true := by
  simp [strIncludes, show ("" : String).toList = [] from rfl, listIndexOfSub_nil_target]

lemma replaceFirst_empty (s : String) : replaceFirst s "" = s := by
  unfold replaceFirst
  rw [show ("" : String).toList = [] from rfl, listIndexOfSub_nil_target]
  simp [stringMk_toList]

lemma isFilterValid_default (s : String) : isFilterValid s = validFilters.contains s := by
  unfold isFilterValid
  cases h : validFilters.contains s <;> simp [h]

lemma deleteParam_of_fresh (ps : SearchParams) (k : String) (h : ∀ kv ∈ ps, kv.1 ≠ k) :
    deleteParam ps k = ps :=
  List.filter_eq_self.mpr (fun kv hm => by simp [h kv hm])

lemma applyFilters_encode (items : List IFilter) (params0 : SearchParams)
    (hsingle : ∀ i ∈ items, ∃ v, i.filter = FilterValue.str v ∧ v ≠ "")
    (hfresh : ∀ i ∈ items, ∀ kv ∈ params0, kv.1 ≠ i.column)
    (hnd : (items.map IFilter.column).Nodup) :
    (applyFilters "" true items params0).1
      = params0 ++ items.map (fun i => (i.column, (normalizeFilter i).filter)) := by
  induction items generalizing params0 with
  | nil => simp [applyFilters]
  | cons item rest ih =>
    obtain ⟨v, hv, hvne⟩ := hsingle item (List.mem_cons_self _ _)
    have hdel : deleteParam params0 (item.column ++ "") = params0 := by
      rw [String.append_empty]
      exact deleteParam_of_fresh _ _ (fun kv hkv => hfresh item (List.mem_cons_self _ _) kv hkv)
    simp only [List.map_cons, List.nodup_cons] at hnd
    rw [applyFilters]
    simp only [hv]
    rw [if_neg hvne]
    rw [if_neg (by simp : ¬(List.isEmpty [v] = true))]
    rw [if_pos (by simp : (true || !hasParam params0 (item.column ++ "")) = true)]
    rw [hdel]
    have hrec := ih
      (appendAllParams params0 (item.column ++ "") [v])
      (fun i hi => hsingle i (List.mem_cons_of_mem _ hi))
      (fun i hi kv hkv => by
        simp only [appendAllParams, List.foldl_cons, List.foldl_nil, appendParam,
          String.append_empty, List.mem_append, List.mem_singleton] at hkv
        rcases hkv with hkv | hkv
        · exact hfresh i (List.mem_cons_of_mem _ hi) kv hkv
        · subst hkv
          simp only []
          intro hcol
          exact hnd.1 (by rw [hcol]; exact List.mem_map_of_mem _ hi))
      hnd.2
    dsimp only
    rw [hrec]
    simp [appendAllParams, appendParam, normalizeFilter, hv, String.append_empty, List.append_assoc]

lemma contains_true_iff (l : List String) (a : String) : l.contains a = true ↔ a ∈ l := by
  simp

lemma isFilterValid_of_contains (s : String) (h : validFilters.contains s = true) :
    (!isFilterValid s) = false := by
  rw [isFilterValid_default, h]
  rfl

lemma parse_pairs (pairs : SearchParams)
    (h : ∀ kv ∈ pairs, validFilters.contains kv.1 = true ∧ strStartsWith kv.2 "!" = false) :
    parseFiltersFromUrl "" pairs = pairs.map (fun kv => ⟨kv.1, kv.2, false⟩) := by
  induction pairs with
  | nil => rfl
  | cons kv rest ih =>
    obtain ⟨key, value⟩ := kv
    obtain ⟨hcol, hval⟩ := h (key, value) (List.mem_cons_self _ _)
    dsimp only at hcol hval
    rw [parseFiltersFromUrl]
    rw [if_neg (by simp [strIncludes_empty_target])]
    simp only [replaceFirst_empty]
    rw [if_neg (by rw [Bool.not_eq_true]; exact isFilterValid_of_contains _ hcol)]
    simp only [hval]
    rw [ih (fun kv hkv => h kv (List.mem_cons_of_mem _ hkv))]
    simp

lemma parse_mem_source (keySuffix : String) (params : SearchParams) (f : ParsedFilter)
    (hf : f ∈ parseFiltersFromUrl keySuffix params) :
    ∃ kv ∈ params, f.column = replaceFirst kv.1 keySuffix ∧
      f.isExclusive = strStartsWith kv.2 "!" ∧
      f.filter = (if strStartsWith kv.2 "!" then strDrop kv.2 1 else kv.2) := by
  induction params with
  | nil => simp [parseFiltersFromUrl] at hf
  | cons kv rest ih =>
    obtain ⟨key, value⟩ := kv
    rw [parseFiltersFromUrl] at hf
    by_cases hinc : strIncludes key keySuffix = true
    · rw [if_neg (by simp [hinc])] at hf
      by_cases hvalid : isFilterValid (replaceFirst key keySuffix) = true
      · rw [if_neg (by simp [hvalid])] at hf
        rcases List.mem_cons.mp hf with hhead | htail
        · subst hhead
          exact ⟨(key, value), List.mem_cons_self _ _, rfl, rfl, rfl⟩
        · obtain ⟨kv2, hkv2, hp⟩ := ih htail
          exact ⟨kv2, List.mem_cons_of_mem _ hkv2, hp⟩
      · rw [if_pos (by simpa using hvalid)] at hf
        obtain ⟨kv2, hkv2, hp⟩ := ih hf
        exact ⟨kv2, List.mem_cons_of_mem _ hkv2, hp⟩
    · rw [if_pos (by simpa using hinc)] at hf
      obtain ⟨kv2, hkv2, hp⟩ := ih hf
      exact ⟨kv2, List.mem_cons_of_mem _ hkv2, hp⟩

lemma parse_column_valid (keySuffix : String) (params : SearchParams) (f : ParsedFilter)
    (hf : f ∈ parseFiltersFromUrl keySuffix params) :
    validFilters.contains f.column = true := by
  induction params with
  | nil => simp [parseFiltersFromUrl] at hf
  | cons kv rest ih =>
    obtain ⟨key, value⟩ := kv
    rw [parseFiltersFromUrl] at hf
    by_cases hinc : strIncludes key keySuffix = true
    · rw [if_neg (by simp [hinc])] at hf
      by_cases hvalid : isFilterValid (replaceFirst key keySuffix) = true
      · rw [if_neg (by simp [hvalid])] at hf
        rcases List.mem_cons.mp hf with hhead | htail
        · subst hhead
          rw [isFilterValid_default] at hvalid
          exact hvalid
        · exact ih htail
      · rw [if_pos (by simpa using hvalid)] at hf
        exact ih hf
    · rw [if_pos (by simpa using hinc)] at hf
      exact ih hf

lemma parse_retains_valid (keySuffix : String) (params : SearchParams) (kv : String × String)
    (hmem : kv ∈ params) (hinc : strIncludes kv.1 keySuffix = true)
    (hcol : validFilters.contains (replaceFirst kv.1 keySuffix) = true) :
    ∃ f ∈ parseFiltersFromUrl keySuffix params, f.column = replaceFirst kv.1 keySuffix := by
  induction params with
  | nil => simp at hmem
  | cons kv0 rest ih =>
    obtain ⟨key, value⟩ := kv0
    rcases List.mem_cons.mp hmem with hhead | htail
    · subst hhead
      dsimp only at hinc hcol
      rw [parseFiltersFromUrl]
      rw [if_neg (by simp [hinc])]
      rw [if_neg (by rw [Bool.not_eq_true]; exact isFilterValid_of_contains _ hcol)]
      exact ⟨_, List.mem_cons_self _ _, rfl⟩
    · obtain ⟨f, hfmem, hfe⟩ := ih htail
      rw [parseFiltersFromUrl]
      by_cases hinc0 : strIncludes key keySuffix = true
      · rw [if_neg (by simp [hinc0])]
        by_cases hvalid0 : isFilterValid (replaceFirst key keySuffix) = true
        · rw [if_neg (by simp [hvalid0])]
          exact ⟨f, List.mem_cons_of_mem _ hfmem, hfe⟩
        · rw [if_pos (by simpa using hvalid0)]
          exact ⟨f, hfmem, hfe⟩
      · rw [if_pos (by simpa using hinc0)]
        exact ⟨f, hfmem, hfe⟩

/-- C3 counterexample: the column `ev:key:foo` matches the recognized
dynamic prefix `ev:key:`, yet `parseFiltersFromUrl` drops it (it calls
`isFilterValid` without `checkDynamicFilters`), so "retained iff in the
allow-list or matching a dynamic prefix" fails in the `if` direction. -/
theorem parseFilters_dynamic_dropped :
    validDynamicFilters.any (fun p => strStartsWith "ev:key:foo" p) = true ∧
    isFilterValid "ev:key:foo" true = true ∧
    parseFiltersFromUrl "" [("ev:key:foo", "bar")] = [] := by
  refine ⟨by decide, by decide, by decide⟩

/-- C3 (amended): a filter is retained by the untrusted-input parser iff its
column, after stripping the key suffix, is in the fixed allow-list
`validFilters`; dynamic-prefix columns are only accepted when
`checkDynamicFilters` is set, which `parseFiltersFromUrl` does not set, so
they are dropped like any other unknown column. -/
theorem parseFilters_allowlist (keySuffix : String) (params : SearchParams) :
    (∀ f ∈ parseFiltersFromUrl keySuffix params, validFilters.contains f.column = true) ∧
    (∀ kv ∈ params, strIncludes kv.1 keySuffix = true →
      validFilters.contains (replaceFirst kv.1 keySuffix) = true →
      ∃ f ∈ parseFiltersFromUrl keySuffix params, f.column = replaceFirst kv.1 keySuffix) :=
  ⟨fun f hf => parse_column_valid keySuffix params f hf,
   fun kv hkv hinc hcol => parse_retains_valid keySuffix params kv hkv hinc hcol⟩

/-- Witness for C3 at a concrete input: the pair `("pg", "home")` is retained
and its column is in the allow-list. -/
theorem parseFilters_allowlist_witness :
    validFilters.contains (ParsedFilter.mk "pg" "home" false).column = true :=
  (parseFilters_allowlist "" [("pg", "home")]).1 ⟨"pg", "home", false⟩ (by decide)

/-- C9 counterexample: an exclusive filter on an allow-listed column is
encoded by `applyFilters` without any `!` marker on the value, so decoding
the resulting query string yields a non-exclusive filter: the round trip
does not return the original normalized set. -/
theorem filters_roundtrip_exclusive_lost :
    (applyFilters "" true [⟨"pg", FilterValue.str "home", true⟩] []).1 = [("pg", "home")] ∧
    parseFiltersFromUrl "" (applyFilters "" true [⟨"pg", FilterValue.str "home", true⟩] []).1
      = [⟨"pg", "home", false⟩] ∧
    parseFiltersFromUrl "" (applyFilters "" true [⟨"pg", FilterValue.str "home", true⟩] []).1
      ≠ [normalizeFilter ⟨"pg", FilterValue.str "home", true⟩] := by
  refine ⟨by decide, by decide, by decide⟩

/-- C9 (amended): compiling a filter set to its query-string form and parsing
it back yields the original normalized set for non-exclusive filters with
distinct allow-listed columns and non-empty single values not starting with
`!` (the encoder writes no `!` marker, so exclusivity does not survive the
round trip); moreover every parsed entry comes from a query pair whose raw
value starts with `!` exactly when the entry is exclusive, the stored value
being the raw value with that prefix removed. -/
theorem filters_roundtrip (items : List IFilter)
    (hsingle : ∀ i ∈ items, ∃ v, i.filter = FilterValue.str v ∧ v ≠ "" ∧
      strStartsWith v "!" = false)
    (hcols : ∀ i ∈ items, validFilters.contains i.column = true)
    (hexcl : ∀ i ∈ items, i.isExclusive = false)
    (hnd : (items.map IFilter.column).Nodup) :
    parseFiltersFromUrl "" (applyFilters "" true items []).1 = items.map normalizeFilter ∧
    (∀ keySuffix params, ∀ f ∈ parseFiltersFromUrl keySuffix params,
      ∃ kv ∈ params, f.column = replaceFirst kv.1 keySuffix ∧
        f.isExclusive = strStartsWith kv.2 "!" ∧
        f.filter = (if strStartsWith kv.2 "!" then strDrop kv.2 1 else kv.2)) := by
  constructor
  · rw [applyFilters_encode items []
      (fun i hi => (hsingle i hi).imp (fun v hv => ⟨hv.1, hv.2.1⟩))
      (fun i _ kv hkv => absurd hkv (List.not_mem_nil kv))
      hnd]
    rw [List.nil_append]
    rw [parse_pairs _ (fun kv hkv => by
      obtain ⟨i, hi, hikv⟩ := List.mem_map.mp hkv
      obtain ⟨v, hv, _, hnb⟩ := hsingle i hi
      subst hikv
      exact ⟨hcols i hi, by simpa [normalizeFilter, hv] using hnb⟩)]
    rw [List.map_map]
    refine List.map_congr_left (fun i hi => ?_)
    obtain ⟨v, hv, _, _⟩ := hsingle i hi
    simp [normalizeFilter, hv, hexcl i hi]
  · intro keySuffix params f hf
    exact parse_mem_source keySuffix params f hf

/-- Witness for C9 at a concrete input: a single non-exclusive `pg` filter
with value `home` survives the round trip unchanged. -/
theorem filters_roundtrip_witness :
    parseFiltersFromUrl "" (applyFilters "" true [⟨"pg", FilterValue.str "home", false⟩] []).1
      = [normalizeFilter ⟨"pg", FilterValue.str "home", false⟩] :=
  (filters_roundtrip [⟨"pg", FilterValue.str "home", false⟩]
    (fun i hi => by
      rw [List.mem_singleton] at hi
      subst hi
      exact ⟨"home", rfl, by decide, by decide⟩)
    (fun i hi => by
      rw [List.mem_singleton] at hi
      subst hi
      decide)
    (fun i hi => by
      rw [List.mem_singleton] at hi
      subst hi
      rfl)
    (by decide)).1

lemma isPerformanceValid_iff (p : PerfDTO) :
    isPerformanceValid p = true ↔
      (p.dns ≤ 300000 ∧ p.tls ≤ 300000 ∧ p.conn ≤ 300000 ∧ p.response ≤ 300000 ∧
       p.render ≤ 300000 ∧ p.dom_load ≤ 300000 ∧ p.page_load ≤ 300000 ∧ p.ttfb ≤ 300000 ∧
       0 ≤ p.dns ∧ 0 ≤ p.tls ∧ 0 ≤ p.conn ∧ 0 ≤ p.response ∧
       0 ≤ p.render ∧ 0 ≤ p.dom_load ∧ 0 ≤ p.page_load ∧ 0 ≤ p.ttfb) := by
  simp [isPerformanceValid, MAX_PERFORMANCE_VALUE, and_assoc, ge_iff_le]

/-- C2 (code bug): in `log` the unique-only gate is `unique && logDTO.unique`,
which rejects exactly the new visits and saves the duplicates: a duplicate
pageview (`isUnique` reports not new) submitted with the unique flag is
saved, and a new visit with the flag is rejected — the opposite of the
claim, of the error message in the code itself, and of the sibling `logCustom`
gate, which does reject duplicates with a Forbidden signal distinct from
BadRequest. -/
theorem log_unique_gate_inverted :
    log ⟨"proj12345678", true, none⟩ false "sid-0"
      = .ok ⟨[⟨"sid-0", "proj12345678", 0⟩], []⟩ ∧
    log ⟨"proj12345678", true, none⟩ true "sid-0"
      = .error (.forbidden
          "The event was not saved because it was not unique while unique only param is provided") ∧
    logCustomUniqueGate true false
      = .error (.forbidden
          "The unique option provided, while the custom event have already been created for this session") ∧
    logCustomUniqueGate true true = .ok () :=
  ⟨rfl, rfl, rfl, rfl⟩

/-- C4: `noscript` writes the fixed 1x1 transparent GIF placeholder
(HTTP 200, `image/gif`) on every path — in particular when the store append
of the pageview row fails; the failure is logged and never propagated. -/
theorem noscript_always_gif (pid : String) (unique : Bool) (psid : String)
    (botCheckFails : Bool) (outcome : InsertOutcome) :
    (noscript pid unique psid botCheckFails outcome).response
      = ⟨200, "image/gif", TRANSPARENT_GIF_BUFFER⟩ ∧
    (noscript pid unique psid botCheckFails outcome).thrown = none ∧
    (∀ msg, outcome = .fail msg → botCheckFails = false →
      (noscript pid unique psid botCheckFails outcome).loggedErrors = [msg]) := by
  unfold noscript
  by_cases hb : botCheckFails <;> cases outcome <;> simp [hb]

/-- Witness for C4 at a concrete input: a failing insert still yields the
GIF response and the failure message is logged. -/
theorem noscript_always_gif_witness :
    (noscript "proj12345678" false "sid-0" false (.fail "insert failed")).response
      = ⟨200, "image/gif", TRANSPARENT_GIF_BUFFER⟩ ∧
    (noscript "proj12345678" false "sid-0" false (.fail "insert failed")).loggedErrors
      = ["insert failed"] :=
  ⟨(noscript_always_gif "proj12345678" false "sid-0" false (.fail "insert failed")).1,
   (noscript_always_gif "proj12345678" false "sid-0" false (.fail "insert failed")).2.2
     "insert failed" rfl rfl⟩

/-- C5: two immediately successive `isUnique` calls with identical
(ip, userAgent, projectId), starting from a state with no presence marker
for that identity: the first call returns unique=true, the second
unique=false, and both return the same session id. -/
theorem isUnique_twice (salt pid userAgent ip : String) (st : DedupState)
    (h : st.markers.lookup (sessionHash salt pid userAgent ip) = none) :
    (isUnique salt pid userAgent ip st).1.1 = true ∧
    (isUnique salt pid userAgent ip (isUnique salt pid userAgent ip st).2).1.1 = false ∧
    (isUnique salt pid userAgent ip (isUnique salt pid userAgent ip st).2).1.2
      = (isUnique salt pid userAgent ip st).1.2 := by
  simp [isUnique, h, List.lookup]

/-- Witness for C5 at a concrete input: the empty marker store. -/
theorem isUnique_twice_witness :
    (isUnique "salt" "proj12345678" "ua" "ip" ⟨[], 0⟩).1.1 = true :=
  (isUnique_twice "salt" "proj12345678" "ua" "ip" ⟨[], 0⟩ rfl).1

/-- C6: for both list endpoints, a resolved take greater than 150 (which,
since the default is 30, means a supplied take parameter greater than 150)
is rejected with BadRequest and no pagination pair reaches the list query;
take at most 150 is accepted as-is; an absent skip resolves to 0, and skip
is a non-negative integer by construction. -/
theorem pagination_take_cap (takeParam skipParam : Option Nat) :
    (150 < getSafeNumber takeParam 30 →
      getSessionsPagination takeParam skipParam
        = .error (.badRequest "The maximum number of sessions to return is 150") ∧
      getErrorsPagination takeParam skipParam
        = .error (.badRequest "The maximum number of errors to return is 150")) ∧
    (getSafeNumber takeParam 30 ≤ 150 →
      getSessionsPagination takeParam skipParam
        = .ok ⟨getSafeNumber takeParam 30, getSafeNumber skipParam 0⟩ ∧
      getErrorsPagination takeParam skipParam
        = .ok ⟨getSafeNumber takeParam 30, getSafeNumber skipParam 0⟩) ∧
    getSafeNumber (none : Option Nat) 0 = 0 := by
  refine ⟨fun h => ?_, fun h => ?_, rfl⟩
  · simp only [getSessionsPagination, getErrorsPagination]
    rw [if_pos h, if_pos h]
    exact ⟨rfl, rfl⟩
  · simp only [getSessionsPagination, getErrorsPagination]
    rw [if_neg (by omega), if_neg (by omega)]
    exact ⟨rfl, rfl⟩

/-- Witness for C6 at concrete inputs: take 151 is rejected, take 150 with
absent skip is accepted as (150, 0). -/
theorem pagination_take_cap_witness :
    getSessionsPagination (some 151) none
      = .error (.badRequest "The maximum number of sessions to return is 150") ∧
    getErrorsPagination (some 150) none = .ok ⟨150, 0⟩ :=
  ⟨((pagination_take_cap (some 151) none).1 (by decide)).1,
   ((pagination_take_cap (some 150) none).2.1 (by decide)).2⟩

/-- C7: a `getData` request whose parsed metrics exceed the cap is rejected
with BadRequest before any store query is issued (the error aborts the
pipeline with no query list); within the cap the request proceeds, and any
meta-results query carries the full parsed metrics list, never a truncated
subset. -/
theorem getData_metrics_cap (maxMetricsInView : Nat) (pid : String)
    (parsedMetrics : List String) (periodIsAll customEV : Bool) :
    (parsedMetrics.length > maxMetricsInView →
      getData maxMetricsInView pid parsedMetrics periodIsAll customEV
        = .error (.badRequest ("The maximum number of metrics within one request is "
            ++ toString maxMetricsInView))) ∧
    (parsedMetrics.length ≤ maxMetricsInView →
      ∃ out, getData maxMetricsInView pid parsedMetrics periodIsAll customEV = .ok out ∧
        out.computedMetrics = parsedMetrics ∧
        ∀ pid2 ms, StoreQuery.metaResults pid2 ms ∈ out.queries → ms = parsedMetrics) := by
  refine ⟨fun h => ?_, fun h => ?_⟩
  · simp only [getData]
    rw [if_pos h]
  · simp only [getData]
    rw [if_neg (by omega)]
    refine ⟨_, rfl, rfl, fun pid2 ms hm => ?_⟩
    by_cases hp : periodIsAll <;> by_cases hc : customEV <;>
      by_cases he : parsedMetrics.isEmpty <;>
      simp [hp, hc, he] at hm <;> exact hm.2

/-- Witness for C7 at a concrete input: four metrics against a cap of
three. -/
theorem getData_metrics_cap_witness :
    getData 3 "proj12345678" ["m1", "m2", "m3", "m4"] false false
      = .error (.badRequest "The maximum number of metrics within one request is 3") := by
  have h := (getData_metrics_cap 3 "proj12345678" ["m1", "m2", "m3", "m4"] false false).1
    (by decide)
  simpa using h

/-- C10: when the unique-only gate does not fire, `log` succeeds, appends
exactly the one pageview row, and appends a performance row iff the perf
payload is present with all eight timings between 0 and 300000 milliseconds
(`MAX_PERFORMANCE_VALUE = 1000 * 60 * 5`); otherwise no performance row is
appended and the request still succeeds; the performance row carries the
timings taken from the payload. -/
theorem log_perf_gate (logDTO : PageviewsDTO) (unique : Bool) (psid : String)
    (hgate : (unique && logDTO.unique) = false) :
    ∃ eff, log logDTO unique psid = .ok eff ∧
      eff.analyticsRows = [trafficTransformer psid logDTO.pid (if unique then 1 else 0)] ∧
      (eff.performanceRows ≠ [] ↔ ∃ p, logDTO.perf = some p ∧
        p.dns ≤ 300000 ∧ p.tls ≤ 300000 ∧ p.conn ≤ 300000 ∧ p.response ≤ 300000 ∧
        p.render ≤ 300000 ∧ p.dom_load ≤ 300000 ∧ p.page_load ≤ 300000 ∧
        p.ttfb ≤ 300000 ∧ 0 ≤ p.dns ∧ 0 ≤ p.tls ∧ 0 ≤ p.conn ∧ 0 ≤ p.response ∧
        0 ≤ p.render ∧ 0 ≤ p.dom_load ∧ 0 ≤ p.page_load ∧ 0 ≤ p.ttfb) ∧
      (∀ q, logDTO.perf = some q → eff.performanceRows ≠ [] →
        eff.performanceRows = [performanceTransformer logDTO.pid q.dns q.tls q.conn
          q.response q.render q.dom_load q.page_load q.ttfb]) := by
  simp only [log, hgate, Bool.false_eq_true, if_false]
  cases hperf : logDTO.perf with
  | none =>
    refine ⟨_, rfl, rfl, ?_, ?_⟩
    · simp
    · intro q hq
      exact absurd hq (by simp)
  | some p =>
    by_cases hv : isPerformanceValid p = true
    · simp only [hv, if_true]
      refine ⟨_, rfl, rfl, ?_, ?_⟩
      · constructor
        · intro _
          exact ⟨p, rfl, (isPerformanceValid_iff p).mp hv⟩
        · intro _
          simp
      · intro q hq _
        injection hq with hq2
        subst hq2
        rfl
    · simp only [Bool.not_eq_true] at hv
      simp only [hv, Bool.false_eq_true, if_false]
      refine ⟨_, rfl, rfl, ?_, ?_⟩
      · constructor
        · intro hne
          exact absurd rfl hne
        · rintro ⟨q, hq, hr⟩
          injection hq with hq2
          subst hq2
          exact absurd ((isPerformanceValid_iff p).mpr hr) (by simp [hv])
      · intro q hq hne
        exact absurd rfl hne

/-- Witness for C10 at a concrete input: a valid one-millisecond payload
produces both the pageview row and the performance row. -/
theorem log_perf_gate_witness :
    ∃ eff, log ⟨"proj12345678", false, some ⟨1, 1, 1, 1, 1, 1, 1, 1⟩⟩ false "sid-0"
        = .ok eff ∧
      eff.analyticsRows = [trafficTransformer "sid-0" "proj12345678" 0] := by
  obtain ⟨eff, h1, h2, -, -⟩ :=
    log_perf_gate ⟨"proj12345678", false, some ⟨1, 1, 1, 1, 1, 1, 1, 1⟩⟩ false "sid-0" rfl
  exact ⟨eff, h1, by simpa using h2⟩

lemma parseStringBody_escape (l : List Char) (rest : List Char) :
    parseStringBody (jsonEscape l ++ '"' :: rest) = some (l, rest) := by
  rw [parseStringBody]
  induction l with
  | nil =>
    rw [jsonEscape, List.nil_append, parseStringBodyAux, if_pos rfl]
  | cons c cs ih =>
    by_cases hc : c = '"' ∨ c = '\\'
    · rw [jsonEscape, if_pos hc, List.cons_append, List.cons_append]
      rw [show ∀ T : List Char, parseStringBodyAux false ('\\' :: T) = parseStringBodyAux true T
          from fun T => by rw [parseStringBodyAux, if_neg (by decide), if_pos rfl]]
      rw [parseStringBodyAux, ih]
      rcases hc with hc | hc <;> subst hc <;> rfl
    · push_neg at hc
      rw [jsonEscape, if_neg (by tauto), List.cons_append]
      rw [parseStringBodyAux, if_neg hc.1, if_neg hc.2, ih]
      rfl

lemma skipWs_cons_of_not_ws (c : Char) (cs : List Char) (h : isJsonWs c = false) :
    skipWs (c :: cs) = c :: cs := by
  rw [skipWs, if_neg (by simp [h])]

lemma parseJsonAux_quote (m : Nat) (tail out rem : List Char)
    (h : parseStringBody tail = some (out, rem)) :
    parseJsonAux (m + 1) ('"' :: tail) = some (.str (String.mk out), rem) := by
  rw [parseJsonAux]
  rw [skipWs_cons_of_not_ws '"' tail (by decide)]
  simp [h]

lemma parseArrayItems_last (m : Nat) (input r2 rest : List Char) (v : Json)
    (h : parseJsonAux m input = some (v, r2))
    (h2 : skipWs r2 = ']' :: rest) :
    parseArrayItems (m + 1) input = some ([v], rest) := by
  rw [parseArrayItems, h]
  simp [h2]

lemma parseJsonAux_bracketQuote (m : Nat) (tail t : List Char) (elems : List Json)
    (r2 : List Char) (hws : skipWs tail = '"' :: t)
    (h : parseArrayItems m ('"' :: t) = some (elems, r2)) :
    parseJsonAux (m + 1) ('[' :: tail) = some (.arr elems, r2) := by
  rw [parseJsonAux]
  rw [skipWs_cons_of_not_ws '[' tail (by decide)]
  simp [hws, h]

lemma stringToList_mk (l : List Char) : (String.mk l).toList = l := rfl

lemma jsonParse_stringify_single (p : String) :
    jsonParse (jsonStringifyStrArr [p]) = some (.arr [.str p]) := by
  have hq : jsonStringifyStrArr [p]
      = String.mk ('[' :: '"' :: (jsonEscape p.toList ++ '"' :: ']' :: [])) := by
    rw [jsonStringifyStrArr]
    simp [List.intercalate]
  rw [hq, jsonParse, stringToList_mk]
  have h1 := parseStringBody_escape p.toList (']' :: [])
  have h2 := parseJsonAux_quote ((jsonEscape p.toList).length + 2) _ _ _ h1
  have h3 := parseArrayItems_last ((jsonEscape p.toList).length + 3) _ _ _ _ h2
    (skipWs_cons_of_not_ws ']' [] (by decide))
  have h4 := parseJsonAux_bracketQuote ((jsonEscape p.toList).length + 4)
    ('"' :: (jsonEscape p.toList ++ '"' :: ']' :: []))
    (jsonEscape p.toList ++ '"' :: ']' :: []) _ _
    (skipWs_cons_of_not_ws '"' _ (by decide)) h3
  have hlen : ('[' :: '"' :: (jsonEscape p.toList ++ '"' :: ']' :: [])).length + 1
      = (jsonEscape p.toList).length + 4 + 1 := by
    simp
  rw [hlen, h4]
  simp [stringMk_toList, skipWs]

/-- C8: `getPIDsArray` raises BadRequest when neither or both of `pids` and
`pid` are provided; when only `pid` is provided it returns the one-element
array `[pid]` (stringify-then-parse of the single pid); a provided `pids`
string that is not valid JSON raises UnprocessableEntity, as does one that
parses to a non-array; every branch either throws or returns the fully
parsed array, never a partial result. -/
theorem getPIDsArray_spec (pids pid : Option String) :
    (optStrEmpty pids = true → optStrEmpty pid = true →
      getPIDsArray pids pid = .error (.badRequest
        "An array of Project IDs (pids) or a Project ID (pid) has to be provided")) ∧
    (optStrEmpty pids = false → optStrEmpty pid = false →
      getPIDsArray pids pid = .error (.badRequest
        "Please provide either an array of Project IDs (pids) or a Project ID (pid), but not both")) ∧
    (optStrEmpty pids = true → optStrEmpty pid = false →
      getPIDsArray pids pid = .ok [Json.str (pid.getD "")]) ∧
    (∀ s, pids = some s → optStrEmpty pids = false → optStrEmpty pid = true →
      ((jsonParse s = none → getPIDsArray pids pid = .error (.unprocessableEntity
          "Cannot process the provided array of Project IDs")) ∧
       (∀ elems, jsonParse s = some (.arr elems) → getPIDsArray pids pid = .ok elems) ∧
       (∀ j, jsonParse s = some j → (∀ elems, j ≠ .arr elems) →
         getPIDsArray pids pid = .error (.unprocessableEntity
           "An array of Project IDs has to be provided as a pids param")))) := by
  refine ⟨fun h1 h2 => ?_, fun h1 h2 => ?_, fun h1 h2 => ?_, fun s hs h1 h2 => ?_⟩
  · simp [getPIDsArray, h1, h2]
  · simp [getPIDsArray, h1, h2]
  · simp [getPIDsArray, h1, h2, jsonParse_stringify_single]
  · subst hs
    refine ⟨fun hp => ?_, fun elems hp => ?_, fun j hp hne => ?_⟩
    · simp [getPIDsArray, h1, h2, hp]
    · simp [getPIDsArray, h1, h2, hp]
    · cases j with
      | arr elems => exact absurd rfl (hne elems)
      | str s2 => simp [getPIDsArray, h1, h2, hp]
      | num raw => simp [getPIDsArray, h1, h2, hp]
      | bool b => simp [getPIDsArray, h1, h2, hp]
      | null => simp [getPIDsArray, h1, h2, hp]
      | obj fields => simp [getPIDsArray, h1, h2, hp]

/-- Witness for C8 at a concrete input: only `pid` provided yields the
one-element array. -/
theorem getPIDsArray_spec_witness :
    getPIDsArray none (some "proj12345678") = .ok [Json.str "proj12345678"] := by
  have h := (getPIDsArray_spec none (some "proj12345678")).2.2.1 rfl rfl
  simpa using h
